import Mathlib

/-
Verification of the coordination core of src/vader_cluster_parallel.py.

The Python source is embedded shallowly: pure numeric code over AMUSE
quantities becomes functions over ℝ (or ℚ where the code is exact decimal
arithmetic), sequences of attribute assignments become explicit record
updates, and the two external collaborators that live in files of the
repository not available here (disk_class.Disk.truncate and
disk_class.Disk.evolve_disk_for) are modelled from the specification, as
marked in their doc comments.
-/

/-! ## Disk pool partitioner (pool_disks, source lines 337-368) -/

/-- One iteration step of the loop `for i in range(N_cores)` in pool_disks:
`N = len(disks) // N_cores`, `n = len(disks) % N_cores`; each step takes
`DIFF = N+1` while `counter < n` (incrementing `counter`), else `DIFF = N`,
and slices the next `DIFF` disks off the front (the running `MIN` offset is
represented by passing the remaining suffix `rest`). -/
def pool_aux {α : Type} (N n : ℕ) : ℕ → ℕ → List α → List (List α)
  | 0, _, _ => []
  | rem + 1, counter, rest =>
      let DIFF := if counter < n then N + 1 else N
      let counter2 := if counter < n then counter + 1 else counter
      rest.take DIFF :: pool_aux N n rem counter2 (rest.drop DIFF)

/-- Embedding of pool_disks (source lines 337-368): distribute a list of
disks over `N_cores` groups, the first `len % N_cores` groups receiving
`len / N_cores + 1` disks and the rest `len / N_cores`. -/
def pool_disks {α : Type} (disks : List α) (N_cores : ℕ) : List (List α) :=
  pool_aux (disks.length / N_cores) (disks.length % N_cores) N_cores 0 disks

lemma pool_aux_length {α : Type} (N n : ℕ) :
    ∀ (rem counter : ℕ) (rest : List α), (pool_aux N n rem counter rest).length = rem := by
  intro rem
  induction rem with
  | zero => intro c rest; rfl
  | succ r ih =>
      intro c rest
      simp only [pool_aux, List.length_cons, ih]

lemma pool_aux_flatten {α : Type} (N n : ℕ) :
    ∀ (rem counter : ℕ) (rest : List α),
      rest.length ≤ rem * N + (n - counter) → n ≤ counter + rem →
      (pool_aux N n rem counter rest).flatten = rest := by
  intro rem
  induction rem with
  | zero =>
      intro c rest h1 h2
      have hlen : rest.length = 0 := by omega
      have hnil : rest = [] := List.length_eq_zero.mp hlen
      simp [pool_aux, hnil]
  | succ r ih =>
      intro c rest h1 h2
      rw [Nat.succ_mul] at h1
      simp only [pool_aux, List.flatten_cons]
      by_cases hc : c < n
      · simp only [if_pos hc]
        rw [ih (c + 1) (rest.drop (N + 1)) (by rw [List.length_drop]; omega) (by omega)]
        exact List.take_append_drop _ _
      · simp only [if_neg hc]
        rw [ih c (rest.drop N) (by rw [List.length_drop]; omega) (by omega)]
        exact List.take_append_drop _ _

lemma pool_aux_map_length {α : Type} (N n : ℕ) :
    ∀ (rem counter : ℕ) (rest : List α),
      rem * N + (n - counter) ≤ rest.length →
      (pool_aux N n rem counter rest).map List.length
        = (List.range rem).map (fun i => if counter + i < n then N + 1 else N) := by
  intro rem
  induction rem with
  | zero => intro c rest _; rfl
  | succ r ih =>
      intro c rest h1
      rw [Nat.succ_mul] at h1
      simp only [pool_aux, List.map_cons, List.range_succ_eq_map, List.map_map]
      by_cases hc : c < n
      · simp only [if_pos hc]
        have hlen : (rest.take (N + 1)).length = N + 1 := by
          rw [List.length_take]; omega
        rw [hlen, ih (c + 1) (rest.drop (N + 1)) (by rw [List.length_drop]; omega)]
        congr 1
        · simp [hc]
        · apply List.map_congr_left
          intro i _
          simp only [Function.comp_apply, Nat.succ_eq_add_one]
          have harith : c + 1 + i = c + (i + 1) := by omega
          rw [harith]
      · simp only [if_neg hc]
        have hlen : (rest.take N).length = N := by
          rw [List.length_take]; omega
        rw [hlen, ih c (rest.drop N) (by rw [List.length_drop]; omega)]
        congr 1
        · simp [hc]
        · apply List.map_congr_left
          intro i _
          simp only [Function.comp_apply, Nat.succ_eq_add_one]
          have hi1 : ¬ c + i < n := by omega
          have hi2 : ¬ c + (i + 1) < n := by omega
          rw [if_neg hi1, if_neg hi2]

lemma pool_disks_length {α : Type} (disks : List α) (W : ℕ) :
    (pool_disks disks W).length = W :=
  pool_aux_length _ _ _ _ _

lemma pool_disks_flatten {α : Type} (disks : List α) (W : ℕ) (hW : 1 ≤ W) :
    (pool_disks disks W).flatten = disks := by
  apply pool_aux_flatten
  · have := Nat.div_add_mod disks.length W
    omega
  · have := Nat.mod_lt disks.length (show 0 < W by omega)
    omega

lemma pool_disks_map_length {α : Type} (disks : List α) (W : ℕ) :
    (pool_disks disks W).map List.length
      = (List.range W).map
          (fun i => if i < disks.length % W then disks.length / W + 1 else disks.length / W) := by
  rw [pool_disks, pool_aux_map_length]
  · simp only [Nat.zero_add]
  · have := Nat.div_add_mod disks.length W
    omega

lemma pool_disks_mem_length {α : Type} (disks : List α) (W : ℕ) (l : List α)
    (hl : l ∈ pool_disks disks W) :
    l.length = disks.length / W ∨ l.length = disks.length / W + 1 := by
  have hmem : l.length ∈ (pool_disks disks W).map List.length :=
    List.mem_map_of_mem List.length hl
  rw [pool_disks_map_length] at hmem
  obtain ⟨i, _, hi⟩ := List.mem_map.mp hmem
  by_cases hc : i < disks.length % W
  · right; rw [← hi, if_pos hc]
  · left; rw [← hi, if_neg hc]

/-- C1: for every ordered list of disks and worker count W >= 1, pool_disks
returns exactly W lists whose concatenation is the input in order (hence the
lists are contiguous slices), the first len mod W lists holding
len / W + 1 = ceil(len/W) elements and the rest len / W = floor(len/W)
elements, so any two partition sizes differ by at most 1. -/
theorem c1_pool_disks_partition {α : Type} (disks : List α) (W : ℕ) (hW : 1 ≤ W) :
    (pool_disks disks W).length = W ∧
    (pool_disks disks W).flatten = disks ∧
    ((pool_disks disks W).map List.length
      = (List.range W).map
          (fun i => if i < disks.length % W then disks.length / W + 1 else disks.length / W)) ∧
    ∀ l1 ∈ pool_disks disks W, ∀ l2 ∈ pool_disks disks W, l1.length ≤ l2.length + 1 := by
  refine ⟨pool_disks_length disks W, pool_disks_flatten disks W hW,
    pool_disks_map_length disks W, ?_⟩
  intro l1 h1 l2 h2
  rcases pool_disks_mem_length disks W l1 h1 with e1 | e1 <;>
    rcases pool_disks_mem_length disks W l2 h2 with e2 | e2 <;> omega

theorem c1_witness :
    1 ≤ 2 ∧
    ((pool_disks ([1, 2, 3, 4, 5] : List ℕ) 2).length = 2 ∧
     (pool_disks ([1, 2, 3, 4, 5] : List ℕ) 2).flatten = [1, 2, 3, 4, 5] ∧
     ((pool_disks ([1, 2, 3, 4, 5] : List ℕ) 2).map List.length
       = (List.range 2).map
           (fun i => if i < ([1, 2, 3, 4, 5] : List ℕ).length % 2
                     then ([1, 2, 3, 4, 5] : List ℕ).length / 2 + 1
                     else ([1, 2, 3, 4, 5] : List ℕ).length / 2)) ∧
     ∀ l1 ∈ pool_disks ([1, 2, 3, 4, 5] : List ℕ) 2,
       ∀ l2 ∈ pool_disks ([1, 2, 3, 4, 5] : List ℕ) 2, l1.length ≤ l2.length + 1) :=
  ⟨by decide, c1_pool_disks_partition [1, 2, 3, 4, 5] 2 (by decide)⟩

/-- C10: pool_disks is total for every worker count, and when N_cores exceeds
the number of disks it still returns exactly N_cores lists: len(disks) // N_cores
is 0 and len(disks) % N_cores is len(disks), so the first len(disks) lists get
one disk each and the remaining lists are empty, and the concatenation still
equals the input. -/
theorem c10_pool_disks_excess_cores {α : Type} (disks : List α) (W : ℕ)
    (h : disks.length < W) :
    (pool_disks disks W).length = W ∧
    (pool_disks disks W).flatten = disks ∧
    (pool_disks disks W).map List.length
      = (List.range W).map (fun i => if i < disks.length then 1 else 0) := by
  have hW : 1 ≤ W := by omega
  have hdiv : disks.length / W = 0 := Nat.div_eq_of_lt h
  have hmod : disks.length % W = disks.length := Nat.mod_eq_of_lt h
  refine ⟨pool_disks_length disks W, pool_disks_flatten disks W hW, ?_⟩
  rw [pool_disks_map_length, hdiv, hmod]

theorem c10_witness :
    ([10, 20] : List ℕ).length < 4 ∧
    ((pool_disks ([10, 20] : List ℕ) 4).length = 4 ∧
     (pool_disks ([10, 20] : List ℕ) 4).flatten = [10, 20] ∧
     (pool_disks ([10, 20] : List ℕ) 4).map List.length
       = (List.range 4).map (fun i => if i < ([10, 20] : List ℕ).length then 1 else 0)) :=
  ⟨by decide, c10_pool_disks_excess_cores [10, 20] 4 (by decide)⟩

/-! ## Parallel evolution dispatcher (run_disks, source lines 308-334 and 380-396) -/

lemma flatten_map_map {α β : Type} (g : α → β) :
    ∀ L : List (List α), (L.map (List.map g)).flatten = L.flatten.map g := by
  intro L
  induction L with
  | nil => rfl
  | cons x xs ih => simp only [List.map_cons, List.flatten_cons, List.map_append, ih]

/-- Embedding of run_disks (source lines 308-334) together with the worker
body remote_worker_code (lines 380-396): the disks are pooled over the
available integrator backends with pool_disks, each group is evolved disk by
disk within its work unit, and the queue join barrier means the caller
observes only the final state of every disk, in the original order.

Modelled from the spec: the per-disk evolution operator disk.evolve_disk_for
(from disk_class, a repository file not available under src/) is taken as the
parameter f, a pure function of the disk's physical state and the time step
dt; per sections 4.2 and 8 of the specification the integrator backends are
interchangeable for a disk's physical state (partitioning over workers is a
pure performance knob), so the backend a group is bound to does not appear as
an argument of f. -/
def run_disks {α : Type} (f : α → ℝ → α) (n_codes : ℕ) (disks : List α) (dt : ℝ) : List α :=
  ((pool_disks disks n_codes).map (fun grp => grp.map (fun d => f d dt))).flatten

lemma run_disks_eq_map {α : Type} (f : α → ℝ → α) (n_codes : ℕ) (disks : List α)
    (dt : ℝ) (h : 1 ≤ n_codes) :
    run_disks f n_codes disks dt = disks.map (fun d => f d dt) := by
  rw [run_disks, flatten_map_map, pool_disks_flatten disks n_codes h]

/-! ## Encounter resolver (periastron_distance and resolve_encounter,
source lines 153-239) -/

/-- AMUSE gravitational constant in SI units (m^3 kg^-1 s^-2); positions are
metres, velocities metres per second, masses kilograms throughout. -/
noncomputable def Gconst : ℝ := 6.67428e-11

/-- One astronomical unit in metres (the AMUSE units.au value). -/
noncomputable def au : ℝ := 149597870691

/-- A 3-vector, as used for AMUSE particle positions and velocities. -/
structure Vec3 where
  x : ℝ
  y : ℝ
  z : ℝ

/-- Componentwise difference of two 3-vectors. -/
noncomputable def vsub (a b : Vec3) : Vec3 := ⟨a.x - b.x, a.y - b.y, a.z - b.z⟩

/-- Euclidean length of a 3-vector (the AMUSE .length() operation). -/
noncomputable def vlen (v : Vec3) : ℝ := Real.sqrt (v.x ^ 2 + v.y ^ 2 + v.z ^ 2)

/-- Cross product of two 3-vectors (numpy.cross). -/
noncomputable def vcross (a b : Vec3) : Vec3 :=
  ⟨a.y * b.z - a.z * b.y, a.z * b.x - a.x * b.z, a.x * b.y - a.y * b.x⟩

/-- The fields of an AMUSE star particle read or written by
resolve_encounter: .mass is the total particle mass (stellar plus disk mass,
source line 523), and the remaining fields are the bookkeeping attributes the
resolver mutates. -/
structure StarE where
  mass : ℝ
  position : Vec3
  velocity : Vec3
  collisional_radius : ℝ
  disk_radius : ℝ
  disk_mass : ℝ
  dispersal_time : ℝ
  truncation_mass_loss : ℝ
  cumulative_truncation_mass_loss : ℝ
  last_encounter : ℝ

/-- The physical state of a Disk object that the resolver touches. -/
structure DiskE where
  disk_radius : ℝ
  disk_mass : ℝ
  dispersed : Bool

/-- mu = G (m0 + m1), the standard gravitational parameter
(source line 160). -/
noncomputable def grav_mu (s0 s1 : StarE) : ℝ := Gconst * (s0.mass + s1.mass)

/-- r = position0 - position1 (source line 163). -/
noncomputable def rel_position (s0 s1 : StarE) : Vec3 := vsub s0.position s1.position

/-- v = velocity0 - velocity1 (source line 166). -/
noncomputable def rel_velocity (s0 s1 : StarE) : Vec3 := vsub s0.velocity s1.velocity

/-- E = |v|^2 / 2 - mu / |r|, the specific orbital energy (source line 169). -/
noncomputable def orbital_energy (s0 s1 : StarE) : ℝ :=
  (vlen (rel_velocity s0 s1)) ^ 2 / 2 - grav_mu s0 s1 / vlen (rel_position s0 s1)

/-- a = -mu / 2 / E, the semi-major axis (source line 172). -/
noncomputable def semimajor_axis (s0 s1 : StarE) : ℝ :=
  -(grav_mu s0 s1) / 2 / orbital_energy s0 s1

/-- p = |r x v|^2 / mu, the semi-latus rectum (source lines 175-176). -/
noncomputable def semilatus_rectum (s0 s1 : StarE) : ℝ :=
  (vlen (vcross (rel_position s0 s1) (rel_velocity s0 s1))) ^ 2 / grav_mu s0 s1

/-- e = sqrt(1 - p / a), the eccentricity (source line 179). -/
noncomputable def eccentricity (s0 s1 : StarE) : ℝ :=
  Real.sqrt (1 - semilatus_rectum s0 s1 / semimajor_axis s0 s1)

/-- Embedding of periastron_distance (source lines 153-182):
p / (1 + e) from the two-body orbital elements above. -/
noncomputable def periastron_distance (s0 s1 : StarE) : ℝ :=
  semilatus_rectum s0 s1 / (1 + eccentricity s0 s1)

/-- Modelled from the spec: disk_class.Disk.truncate (a repository file not
available under src/) returns the disk with its gas radius reduced to the
requested radius and its mass reduced proportionally per the disk's internal
profile; the proportional reduction is modelled as scaling the mass by the
ratio of new to old radius. Used to instantiate the truncate parameter of
the resolver in concrete evaluations. -/
noncomputable def truncate_model (d : DiskE) (new_radius : ℝ) : DiskE :=
  ⟨new_radius, d.disk_mass * (new_radius / d.disk_radius), d.dispersed⟩

/-- Embedding of the body of the loop `for i in range(2)` of
resolve_encounter (source lines 207-239) for one star: set the star's
collisional_radius to 0.49 times the closest approach (line 210); if the
star has no disk do nothing more (lines 212-213); otherwise compute the
truncation radius (lines 216-217) and, when it is below the current disk
radius (line 219), first run the dispersal bookkeeping when the truncation
radius is at most 0.1 au (lines 223-230), and then -- unconditionally, as in
the source, which has no else between lines 230 and 233 -- call the disk's
truncate operation and overwrite the star's disk_radius and disk_mass with
the truncated disk's values (lines 233-239). -/
noncomputable def encounter_star_update (truncate : DiskE → ℝ → DiskE)
    (mass_factor_exponent truncation_parameter : ℝ)
    (closest_approach time : ℝ) (star : StarE) (other_mass : ℝ)
    (disk : Option DiskE) : StarE × Option DiskE :=
  let star := { star with collisional_radius := 0.49 * closest_approach }
  match disk with
  | none => (star, none)
  | some d =>
      let truncation_radius := closest_approach * truncation_parameter *
        ((star.mass / other_mass) ^ mass_factor_exponent)
      if truncation_radius < d.disk_radius then
        let sd :=
          if truncation_radius ≤ 0.1 * au then
            let d := { d with dispersed := true }
            let star := { star with disk_radius := truncation_radius }
            let star := { star with disk_mass := 0 }
            let star := { star with dispersal_time := time }
            let star := { star with truncation_mass_loss := star.disk_mass }
            let star := { star with cumulative_truncation_mass_loss :=
              star.cumulative_truncation_mass_loss + star.disk_mass }
            (star, d)
          else (star, d)
        let star := sd.1
        let d := sd.2
        let new_disk := truncate d truncation_radius
        let star := { star with last_encounter := time }
        let star := { star with disk_radius := new_disk.disk_radius }
        let star := { star with disk_mass := new_disk.disk_mass }
        (star, some new_disk)
      else
        (star, some d)

/-- The two updated stars and their (optional) updated disks produced by one
call of resolve_encounter. -/
structure EncResult where
  s0 : StarE
  s1 : StarE
  d0 : Option DiskE
  d1 : Option DiskE

/-- Embedding of resolve_encounter (source lines 185-239): compute the
periastron distance once, then run the per-star update for i = 0 (the other
mass is stars[1].mass, not yet mutated) and for i = 1 (the other mass is
stars[0].mass after the i = 0 iteration, whose updates never change .mass). -/
noncomputable def resolve_encounter (truncate : DiskE → ℝ → DiskE)
    (mass_factor_exponent truncation_parameter : ℝ)
    (s0 s1 : StarE) (d0 d1 : Option DiskE) (time : ℝ) : EncResult :=
  let closest_approach := periastron_distance s0 s1
  let r0 := encounter_star_update truncate mass_factor_exponent truncation_parameter
    closest_approach time s0 s1.mass d0
  let r1 := encounter_star_update truncate mass_factor_exponent truncation_parameter
    closest_approach time s1 r0.1.mass d1
  ⟨r0.1, r1.1, r0.2, r1.2⟩

/-- C9: for an identical input disk list and identical time step dt, running
run_disks with one integrator backend and with four integrator backends
produces the identical post-step physical state for every disk, in the same
order: both equal the per-disk evolution mapped over the input. The per-disk
evolution f is the spec-modelled evolve_disk_for, a pure function of disk
state and dt (see the doc comment of run_disks). -/
theorem c9_worker_count_invariance (f : DiskE → ℝ → DiskE) (disks : List DiskE) (dt : ℝ) :
    run_disks f 1 disks dt = run_disks f 4 disks dt := by
  rw [run_disks_eq_map f 1 disks dt (by decide), run_disks_eq_map f 4 disks dt (by decide)]

/-- C3 amended: resolve_encounter assigns each involved star's
collisional_radius the value 0.49 times the computed periastron distance,
unconditionally and regardless of the star's previous collisional_radius;
the assignment is a decrease only when that product is at most the pre-call
value, and nothing in the code enforces this. -/
theorem c3_amended_collisional_radius_assignment (truncate : DiskE → ℝ → DiskE)
    (s0 s1 : StarE) (d0 d1 : Option DiskE) (time : ℝ) :
    (resolve_encounter truncate 0.2 (1/3) s0 s1 d0 d1 time).s0.collisional_radius
      = 0.49 * periastron_distance s0 s1 ∧
    (resolve_encounter truncate 0.2 (1/3) s0 s1 d0 d1 time).s1.collisional_radius
      = 0.49 * periastron_distance s0 s1 := by
  simp only [resolve_encounter, encounter_star_update]
  cases d0 <;> cases d1 <;> constructor <;> simp only [] <;> split_ifs <;> rfl

lemma resolve_collisional_radius_eq (truncate : DiskE → ℝ → DiskE)
    (mfe tp : ℝ) (s0 s1 : StarE) (d0 d1 : Option DiskE) (time : ℝ) :
    (resolve_encounter truncate mfe tp s0 s1 d0 d1 time).s0.collisional_radius
      = 0.49 * periastron_distance s0 s1 ∧
    (resolve_encounter truncate mfe tp s0 s1 d0 d1 time).s1.collisional_radius
      = 0.49 * periastron_distance s0 s1 := by
  simp only [resolve_encounter, encounter_star_update]
  cases d0 <;> cases d1 <;> constructor <;> simp only [] <;> split_ifs <;> rfl

lemma sqrt_eval {X c : ℝ} (h : X = c ^ 2) (hc : 0 ≤ c) : Real.sqrt X = c := by
  rw [h, Real.sqrt_sq hc]

/-- First star of the concrete C3 encounter: mass 1e30 kg at (1e10, 0, 0) m
moving at (0, 1e4, 0) m/s, whose collisional_radius has already been shrunk
to 1e6 m by an earlier, much closer encounter. -/
noncomputable def cs3a : StarE :=
  ⟨1e30, ⟨1e10, 0, 0⟩, ⟨0, 1e4, 0⟩, 1e6, 0, 0, 0, 0, 0, 0⟩

/-- Second star of the concrete C3 encounter, at rest at the origin. -/
noncomputable def cs3b : StarE :=
  ⟨1e30, ⟨0, 0, 0⟩, ⟨0, 0, 0⟩, 1e6, 0, 0, 0, 0, 0, 0⟩

lemma cs3_mu : grav_mu cs3a cs3b = 1.334856e20 := by
  simp only [grav_mu, cs3a, cs3b, Gconst]
  norm_num

lemma cs3_r : vlen (rel_position cs3a cs3b) = 1e10 := by
  simp only [rel_position, vsub, cs3a, cs3b, vlen]
  exact sqrt_eval (by norm_num) (by norm_num)

lemma cs3_v : vlen (rel_velocity cs3a cs3b) = 1e4 := by
  simp only [rel_velocity, vsub, cs3a, cs3b, vlen]
  exact sqrt_eval (by norm_num) (by norm_num)

lemma cs3_cross :
    vlen (vcross (rel_position cs3a cs3b) (rel_velocity cs3a cs3b)) = 1e14 := by
  simp only [rel_position, rel_velocity, vsub, vcross, cs3a, cs3b, vlen]
  exact sqrt_eval (by norm_num) (by norm_num)

lemma cs3_periastron : periastron_distance cs3a cs3b = 781250000000 / 20779 := by
  have hE : orbital_energy cs3a cs3b = -1.329856e10 := by
    rw [orbital_energy, cs3_v, cs3_r, cs3_mu]; norm_num
  have hp : semilatus_rectum cs3a cs3b = 12500000000000 / 166857 := by
    rw [semilatus_rectum, cs3_cross, cs3_mu]; norm_num
  have ha : semimajor_axis cs3a cs3b = 1668570000000000 / 332464 := by
    rw [semimajor_axis, cs3_mu, hE]; norm_num
  have hecc : eccentricity cs3a cs3b = 165607 / 166857 := by
    rw [eccentricity, hp, ha]
    rw [show (1 : ℝ) - 12500000000000 / 166857 / (1668570000000000 / 332464)
          = (165607 / 166857) ^ 2 by norm_num]
    exact Real.sqrt_sq (by norm_num)
  rw [periastron_distance, hp, hecc]
  norm_num

/-- C3 counterexample: at this concrete encounter (periastron about 3.76e7 m)
between two stars whose collisional radii were previously 1e6 m,
resolve_encounter raises the first star's collisional_radius to
0.49 times the periastron, about 1.84e7 m, strictly above its pre-call
value -- so the claimed never-increases invariant is false. -/
theorem c3_counterexample :
    (resolve_encounter truncate_model 0.2 (1/3) cs3a cs3b none none 0).s0.collisional_radius
      > cs3a.collisional_radius := by
  rw [(resolve_collisional_radius_eq truncate_model 0.2 (1/3) cs3a cs3b none none 0).1,
    cs3_periastron]
  norm_num [cs3a]

lemma periastron_of_eq_velocity (s0 s1 : StarE) (h : s0.velocity = s1.velocity) :
    periastron_distance s0 s1 = 0 := by
  have hv : rel_velocity s0 s1 = ⟨0, 0, 0⟩ := by
    simp [rel_velocity, vsub, h]
  have hcross : vcross (rel_position s0 s1) (rel_velocity s0 s1) = ⟨0, 0, 0⟩ := by
    simp [hv, vcross]
  have hp : semilatus_rectum s0 s1 = 0 := by
    rw [semilatus_rectum, hcross]
    simp [vlen]
  have hecc : eccentricity s0 s1 = 1 := by
    rw [eccentricity, hp]
    simp
  rw [periastron_distance, hp, hecc]
  norm_num

lemma resolve_zero_velocity_disk (s0 s1 : StarE) (d : DiskE) (time : ℝ)
    (hv : s0.velocity = s1.velocity) (hr : 0 < d.disk_radius) :
    (resolve_encounter truncate_model 0.2 (1/3) s0 s1 (some d) none time).d0
      = some ⟨0, 0, true⟩ ∧
    (resolve_encounter truncate_model 0.2 (1/3) s0 s1 (some d) none time).s0.collisional_radius
      = 0 := by
  have hP := periastron_of_eq_velocity s0 s1 hv
  simp only [resolve_encounter, encounter_star_update, hP, zero_mul, mul_zero]
  rw [if_pos hr, if_pos (show (0 : ℝ) ≤ 0.1 * au by rw [au]; norm_num)]
  simp only [truncate_model, zero_div, mul_zero]
  exact ⟨trivial, trivial⟩

/-- C5 amended: resolve_encounter performs no degeneracy detection. For an
encountering pair with zero relative velocity -- a geometrically degenerate
configuration -- the periastron formula still evaluates (to 0), both
collisional radii are overwritten with 0, and a disked star's disk is put
through the truncation path and dispersed (truncation radius 0 is at most
the 0.1 au floor), rather than the pair being skipped and reported. -/
theorem c5_amended_no_degeneracy_guard (s0 s1 : StarE) (d : DiskE) (time : ℝ)
    (hv : s0.velocity = s1.velocity) (hr : 0 < d.disk_radius) :
    periastron_distance s0 s1 = 0 ∧
    (resolve_encounter truncate_model 0.2 (1/3) s0 s1 (some d) none time).s0.collisional_radius
      = 0 ∧
    (resolve_encounter truncate_model 0.2 (1/3) s0 s1 (some d) none time).d0
      = some ⟨0, 0, true⟩ :=
  ⟨periastron_of_eq_velocity s0 s1 hv,
   (resolve_zero_velocity_disk s0 s1 d time hv hr).2,
   (resolve_zero_velocity_disk s0 s1 d time hv hr).1⟩

/-- First star of the concrete degenerate C5 encounter: it has the same
velocity as its partner (zero relative velocity). -/
noncomputable def cs5a : StarE :=
  ⟨1e30, ⟨1e10, 0, 0⟩, ⟨0, 0, 0⟩, 1e6, 3e12, 1e28, 0, 0, 0, 0⟩

/-- Second star of the concrete degenerate C5 encounter. -/
noncomputable def cs5b : StarE :=
  ⟨1e30, ⟨0, 0, 0⟩, ⟨0, 0, 0⟩, 1e6, 0, 0, 0, 0, 0, 0⟩

/-- The (non-dispersed) disk of the first C5 star. -/
noncomputable def cd5 : DiskE := ⟨3e12, 1e28, false⟩

/-- C5 counterexample: at this concrete geometrically degenerate encounter
(zero relative velocity), resolve_encounter does not skip truncation for the
pair: the first star's disk comes out dispersed with zero radius and mass,
different from its input state -- refuting the claim that the resolver
detects the degeneracy and skips truncation for that pair. -/
theorem c5_counterexample :
    (resolve_encounter truncate_model 0.2 (1/3) cs5a cs5b (some cd5) none 1000).d0
      = some ⟨0, 0, true⟩ ∧
    (resolve_encounter truncate_model 0.2 (1/3) cs5a cs5b (some cd5) none 1000).d0
      ≠ some cd5 := by
  have h := resolve_zero_velocity_disk cs5a cs5b cd5 1000 rfl (by norm_num [cd5])
  refine ⟨h.1, ?_⟩
  rw [h.1]
  simp [cd5]

theorem c5_witness :
    (cs5a.velocity = cs5b.velocity ∧ (0 : ℝ) < cd5.disk_radius) ∧
    (periastron_distance cs5a cs5b = 0 ∧
     (resolve_encounter truncate_model 0.2 (1/3) cs5a cs5b (some cd5) none 500).s0.collisional_radius
       = 0 ∧
     (resolve_encounter truncate_model 0.2 (1/3) cs5a cs5b (some cd5) none 500).d0
       = some ⟨0, 0, true⟩) :=
  ⟨⟨rfl, by norm_num [cd5]⟩,
   c5_amended_no_degeneracy_guard cs5a cs5b cd5 500 rfl (by norm_num [cd5])⟩

lemma au_pos : (0 : ℝ) < au := by rw [au]; norm_num

/-- Separation of the concrete C2 encounter: 0.15 au, so that the truncation
radius for equal-mass stars is 0.05 au, below the 0.1 au dispersal floor
(the end-to-end scenario C of the specification). -/
noncomputable def c2d : ℝ := 0.15 * au

/-- Relative speed of the concrete C2 encounter (m/s). -/
noncomputable def c2w : ℝ := 100

/-- Mass of each star in the concrete C2 encounter, chosen so that the
configuration is exactly circular (w^2 = mu / d) and the periastron is
exactly the current separation c2d. -/
noncomputable def c2m : ℝ := c2w ^ 2 * c2d / (2 * Gconst)

lemma c2d_pos : (0 : ℝ) < c2d := by
  rw [c2d]; nlinarith [au_pos]

lemma c2w_pos : (0 : ℝ) < c2w := by rw [c2w]; norm_num

lemma c2m_ne : c2m ≠ 0 := by
  norm_num [c2m, c2w, c2d, au, Gconst]

/-- First star of the concrete C2 encounter: disked, carrying a 30 au,
1e28 kg disk in its bookkeeping fields. -/
noncomputable def c2star0 : StarE :=
  ⟨c2m, ⟨c2d, 0, 0⟩, ⟨0, c2w, 0⟩, 6e14, 30 * au, 1e28, 0, 0, 0, 0⟩

/-- Second star of the concrete C2 encounter, diskless and at rest. -/
noncomputable def c2star1 : StarE :=
  ⟨c2m, ⟨0, 0, 0⟩, ⟨0, 0, 0⟩, 6e14, 0, 0, 0, 0, 0, 0⟩

/-- The disk of the first C2 star: radius 30 au, mass 1e28 kg. -/
noncomputable def c2disk : DiskE := ⟨30 * au, 1e28, false⟩

lemma c2_mu : grav_mu c2star0 c2star1 = c2w ^ 2 * c2d := by
  have hG : Gconst ≠ 0 := by rw [Gconst]; norm_num
  simp only [grav_mu, c2star0, c2star1, c2m]
  field_simp
  ring

lemma c2_r : vlen (rel_position c2star0 c2star1) = c2d := by
  simp only [rel_position, vsub, c2star0, c2star1, vlen]
  exact sqrt_eval (by ring) (le_of_lt c2d_pos)

lemma c2_v : vlen (rel_velocity c2star0 c2star1) = c2w := by
  simp only [rel_velocity, vsub, c2star0, c2star1, vlen]
  exact sqrt_eval (by ring) (le_of_lt c2w_pos)

lemma c2_cross :
    vlen (vcross (rel_position c2star0 c2star1) (rel_velocity c2star0 c2star1))
      = c2d * c2w := by
  simp only [rel_position, rel_velocity, vsub, vcross, c2star0, c2star1, vlen]
  exact sqrt_eval (by ring) (mul_nonneg (le_of_lt c2d_pos) (le_of_lt c2w_pos))

lemma c2_periastron : periastron_distance c2star0 c2star1 = 0.15 * au := by
  have hd : c2d ≠ 0 := ne_of_gt c2d_pos
  have hw : c2w ≠ 0 := ne_of_gt c2w_pos
  have hE : orbital_energy c2star0 c2star1 = -(c2w ^ 2) / 2 := by
    rw [orbital_energy, c2_v, c2_r, c2_mu, mul_div_assoc, div_self hd]
    ring
  have ha : semimajor_axis c2star0 c2star1 = c2d := by
    rw [semimajor_axis, c2_mu, hE]
    field_simp
    ring
  have hp : semilatus_rectum c2star0 c2star1 = c2d := by
    rw [semilatus_rectum, c2_cross, c2_mu]
    field_simp
    ring
  have hecc : eccentricity c2star0 c2star1 = 0 := by
    rw [eccentricity, hp, ha, div_self hd]
    simp
  rw [periastron_distance, hp, hecc, c2d]
  norm_num

/-- C2: evaluation of resolve_encounter at a concrete failing input for the
claim. The computed periastron is 0.15 au, so the truncation radius is
0.05 au: below the disk radius and at most the 0.1 au floor. The resolver
does mark the disk dispersed and records the encounter time as the dispersal
time, but -- because the source has no else between the dispersal
bookkeeping (lines 223-230) and the truncate call (lines 233-239) -- it then
still invokes the disk's truncate operation and overwrites the star's
disk_mass with the truncated disk's nonzero mass (1e28/600 kg here, with the
spec-modelled proportional truncate), and the recorded truncation_mass_loss
is the just-zeroed disk mass, 0, not the mass actually lost. This
contradicts the claim that in the dispersal branch the star's disk mass
stays zero and truncate is not invoked. -/
theorem c2_dispersal_branch_eval :
    (resolve_encounter truncate_model 0.2 (1/3) c2star0 c2star1 (some c2disk) none
        5000).s0.dispersal_time = 5000 ∧
    (resolve_encounter truncate_model 0.2 (1/3) c2star0 c2star1 (some c2disk) none
        5000).s0.truncation_mass_loss = 0 ∧
    (resolve_encounter truncate_model 0.2 (1/3) c2star0 c2star1 (some c2disk) none
        5000).s0.disk_mass = 1e28 / 600 ∧
    (resolve_encounter truncate_model 0.2 (1/3) c2star0 c2star1 (some c2disk) none
        5000).s0.disk_mass ≠ 0 ∧
    (resolve_encounter truncate_model 0.2 (1/3) c2star0 c2star1 (some c2disk) none
        5000).d0 = some ⟨0.05 * au, 1e28 / 600, true⟩ := by
  have hm : c2m ≠ 0 := c2m_ne
  have hcond1 : 0.15 * au * (1 / 3) < (30 : ℝ) * au := by
    rw [au]; norm_num
  have hcond2 : 0.15 * au * (1 / 3) ≤ 0.1 * au := by
    rw [au]; norm_num
  simp only [resolve_encounter]
  rw [c2_periastron]
  simp only [encounter_star_update, c2star0, c2star1, c2disk]
  rw [div_self hm, Real.one_rpow]
  simp only [mul_one]
  rw [if_pos hcond1, if_pos hcond2]
  simp only [truncate_model]
  refine ⟨trivial, trivial, ?_, ?_, ?_⟩ <;> norm_num [au]

/-! ## Radiation and mass-loss evaluators
(single_photoevaporation_mass_loss, source lines 41-76) -/

/-- The star fields read or written by single_photoevaporation_mass_loss:
stellar mass (MSun), accumulated total_radiation (G0 units), the star's
bookkeeping disk radius converted to cm, and the transient EUV flag. The
decimal arithmetic of the evaluator is exact, so ℚ is used. -/
structure PhotoStar where
  stellar_mass : ℚ
  total_radiation : ℚ
  disk_radius_cm : ℚ
  EUV : Bool

/-- Embedding of single_photoevaporation_mass_loss (source lines 49-76).
The FRIED-grid interpolator (FRIED_interp, an external collaborator) is the
parameter interp, applied to (stellar mass, total radiation, disk gas mass,
disk radius) exactly as on source lines 60-63. If the star's EUV flag is
set, the analytic term 2e-9 * 3 * 4.12 * (disk_radius_cm / 1e14) MSun/yr of
source line 70 is added, else 0 (line 72); the EUV flag is then reset to
false unconditionally (line 74). Returns the total rate and the updated
star. -/
def single_photoevaporation_mass_loss (interp : ℚ → ℚ → ℚ → ℚ → ℚ)
    (star : PhotoStar) (disk_gas_mass disk_radius : ℚ) : ℚ × PhotoStar :=
  let photoevap_Mdot_FUV := interp star.stellar_mass star.total_radiation
    disk_gas_mass disk_radius
  let photoevap_Mdot_EUV : ℚ :=
    if star.EUV then 2 * 1e-9 * 3 * 4.12 * (star.disk_radius_cm / 1e14) else 0
  (photoevap_Mdot_FUV + photoevap_Mdot_EUV, { star with EUV := false })

/-- C8: the EUV flag is cleared unconditionally by the mass-loss evaluation
of the same step: whatever value the radiation evaluation left in the flag
(the quantification over star covers in particular a star whose flag was
just set), after single_photoevaporation_mass_loss runs for that star the
flag is false, so a set flag never leaks into the next step's radiation
evaluation. -/
theorem c8_euv_cleared_after_mass_loss (interp : ℚ → ℚ → ℚ → ℚ → ℚ)
    (star : PhotoStar) (disk_gas_mass disk_radius : ℚ) :
    ((single_photoevaporation_mass_loss interp star disk_gas_mass disk_radius).2).EUV
      = false := by
  simp [single_photoevaporation_mass_loss]

/-- C4 amended: when the EUV flag is set, single_photoevaporation_mass_loss
adds to the interpolated FUV rate an analytic EUV term with fixed
coefficients that is proportional to the first power of the disk radius --
2e-9 * 3 * 4.12 / 1e14 = 2.472e-22 per cm of disk radius -- and not to
disk_radius^(3/2); when the flag is not set it adds exactly zero. -/
theorem c4_amended_euv_term_linear (interp : ℚ → ℚ → ℚ → ℚ → ℚ)
    (star : PhotoStar) (disk_gas_mass disk_radius : ℚ) :
    (single_photoevaporation_mass_loss interp star disk_gas_mass disk_radius).1
      = interp star.stellar_mass star.total_radiation disk_gas_mass disk_radius
        + (if star.EUV then (2.472e-22 : ℚ) * star.disk_radius_cm else 0) := by
  cases h : star.EUV
  · simp [single_photoevaporation_mass_loss, h]
  · simp only [single_photoevaporation_mass_loss, h, if_true]
    ring_nf

/-- The added EUV term of single_photoevaporation_mass_loss, isolated: a
zero interpolator is passed, so the returned rate is exactly the EUV term at
radius R (in cm). -/
def c4_euv_rate (R : ℚ) : ℚ :=
  (single_photoevaporation_mass_loss (fun _ _ _ _ => 0) ⟨1, 1, R, true⟩ 1 1).1

/-- C4 counterexample: quadrupling the disk radius quadruples the added EUV
term (it is nonzero and linear in the radius). A term proportional to
disk_radius^(3/2) with fixed coefficients would instead have to grow by the
factor 4^(3/2) = 8 between the radii 1e14 cm and 4e14 cm, so the claimed
3/2-power law is false of the code. -/
theorem c4_counterexample :
    c4_euv_rate (4 * 1e14) = 4 * c4_euv_rate 1e14 ∧
    c4_euv_rate 1e14 ≠ 0 ∧
    c4_euv_rate (4 * 1e14) ≠ 8 * c4_euv_rate 1e14 := by
  refine ⟨?_, ?_, ?_⟩ <;> norm_num [c4_euv_rate, single_photoevaporation_mass_loss]

/-! ## Luminosity fit (luminosity_fit, source lines 122-150) -/

/-- Embedding of luminosity_fit (source lines 122-150): a ten-segment
power-law fit returning the stellar luminosity in LSun for a stellar mass in
MSun. Every segment test in the source is a strict two-sided comparison
(`a < mass < b`), so exact boundary masses and masses at or below 0.12 fall
through to the final else and yield 0. The mass is a rational (the branch
conditions are exact decimal comparisons); the power-law value is real. -/
noncomputable def luminosity_fit (mass : ℚ) : ℝ :=
  if 0.12 < mass ∧ mass < 0.24 then 1.70294e16 * (mass : ℝ) ^ (42.557 : ℝ)
  else if 0.24 < mass ∧ mass < 0.56 then 9.11137e-9 * (mass : ℝ) ^ (3.8845 : ℝ)
  else if 0.56 < mass ∧ mass < 0.70 then 1.10021e-6 * (mass : ℝ) ^ (12.237 : ℝ)
  else if 0.70 < mass ∧ mass < 0.91 then 2.38690e-4 * (mass : ℝ) ^ (27.199 : ℝ)
  else if 0.91 < mass ∧ mass < 1.37 then 1.02477e-4 * (mass : ℝ) ^ (18.465 : ℝ)
  else if 1.37 < mass ∧ mass < 2.07 then 9.66362e-4 * (mass : ℝ) ^ (11.410 : ℝ)
  else if 2.07 < mass ∧ mass < 3.72 then 6.49335e-2 * (mass : ℝ) ^ (5.6147 : ℝ)
  else if 3.72 < mass ∧ mass < 10.0 then 6.99075e-1 * (mass : ℝ) ^ (3.8058 : ℝ)
  else if 10.0 < mass ∧ mass < 20.2 then 9.73664e0 * (mass : ℝ) ^ (2.6620 : ℝ)
  else if 20.2 < mass then 1.31175e2 * (mass : ℝ) ^ (1.7974 : ℝ)
  else 0

set_option maxHeartbeats 2000000 in
lemma luminosity_fit_pos_of_seg (m : ℚ)
    (h : (0.12 < m ∧ m < 0.24) ∨ (0.24 < m ∧ m < 0.56) ∨ (0.56 < m ∧ m < 0.70) ∨
         (0.70 < m ∧ m < 0.91) ∨ (0.91 < m ∧ m < 1.37) ∨ (1.37 < m ∧ m < 2.07) ∨
         (2.07 < m ∧ m < 3.72) ∨ (3.72 < m ∧ m < 10.0) ∨ (10.0 < m ∧ m < 20.2) ∨
         20.2 < m) :
    0 < luminosity_fit m := by
  have hm : (0 : ℚ) < m := by rcases h with h|h|h|h|h|h|h|h|h|h <;>
    first
      | exact lt_trans (by norm_num) h.1
      | exact lt_trans (by norm_num) h
  have hmr : (0 : ℝ) < (m : ℝ) := by exact_mod_cast hm
  unfold luminosity_fit
  split_ifs with h1 h2 h3 h4 h5 h6 h7 h8 h9 h10
  · positivity
  · positivity
  · positivity
  · positivity
  · positivity
  · positivity
  · positivity
  · positivity
  · positivity
  · positivity
  · exfalso
    rcases h with h|h|h|h|h|h|h|h|h|h
    · exact h1 h
    · exact h2 h
    · exact h3 h
    · exact h4 h
    · exact h5 h
    · exact h6 h
    · exact h7 h
    · exact h8 h
    · exact h9 h
    · exact h10 h

set_option maxHeartbeats 2000000 in
lemma luminosity_fit_zero_of_le (m : ℚ) (hm : m ≤ 0.12) : luminosity_fit m = 0 := by
  unfold luminosity_fit
  split_ifs with h1 h2 h3 h4 h5 h6 h7 h8 h9 h10 <;>
    first
      | rfl
      | (exfalso; revert hm; first
          | exact fun hm => absurd h1.1 (by push_neg; linarith)
          | exact fun hm => absurd h2.1 (by push_neg; linarith)
          | exact fun hm => absurd h3.1 (by push_neg; linarith)
          | exact fun hm => absurd h4.1 (by push_neg; linarith)
          | exact fun hm => absurd h5.1 (by push_neg; linarith)
          | exact fun hm => absurd h6.1 (by push_neg; linarith)
          | exact fun hm => absurd h7.1 (by push_neg; linarith)
          | exact fun hm => absurd h8.1 (by push_neg; linarith)
          | exact fun hm => absurd h9.1 (by push_neg; linarith)
          | exact fun hm => absurd h10 (by push_neg; linarith))

set_option maxHeartbeats 2000000 in
/-- C6: luminosity_fit is strictly positive for every mass strictly inside
one of the ten power-law segments (in particular at 1.0, 2.0, 5.0, 15.0 and
25.0 MSun), and is exactly zero for every mass at or below 0.12 MSun and at
each exact segment boundary 0.24, 0.56, 0.70, 0.91, 1.37, 2.07, 3.72, 10.0
and 20.2 MSun (all branch comparisons are strict). In the real-number model
every value is a finite real. -/
theorem c6_luminosity_fit_domain :
    (∀ m : ℚ,
      (0.12 < m ∧ m < 0.24) ∨ (0.24 < m ∧ m < 0.56) ∨ (0.56 < m ∧ m < 0.70) ∨
      (0.70 < m ∧ m < 0.91) ∨ (0.91 < m ∧ m < 1.37) ∨ (1.37 < m ∧ m < 2.07) ∨
      (2.07 < m ∧ m < 3.72) ∨ (3.72 < m ∧ m < 10.0) ∨ (10.0 < m ∧ m < 20.2) ∨
      20.2 < m → 0 < luminosity_fit m) ∧
    (∀ m : ℚ, m ≤ 0.12 → luminosity_fit m = 0) ∧
    luminosity_fit 0.24 = 0 ∧ luminosity_fit 0.56 = 0 ∧ luminosity_fit 0.70 = 0 ∧
    luminosity_fit 0.91 = 0 ∧ luminosity_fit 1.37 = 0 ∧ luminosity_fit 2.07 = 0 ∧
    luminosity_fit 3.72 = 0 ∧ luminosity_fit 10.0 = 0 ∧ luminosity_fit 20.2 = 0 := by
  refine ⟨luminosity_fit_pos_of_seg, luminosity_fit_zero_of_le, ?_, ?_, ?_, ?_, ?_, ?_, ?_, ?_, ?_⟩ <;>
    · unfold luminosity_fit
      norm_num

theorem c6_witness :
    (((0.91 : ℚ) < 1 ∧ (1 : ℚ) < 1.37) ∧ (1 / 10 : ℚ) ≤ 0.12) ∧
    0 < luminosity_fit 1 ∧ luminosity_fit (1 / 10) = 0 :=
  ⟨⟨⟨by norm_num, by norm_num⟩, by norm_num⟩,
   c6_luminosity_fit_domain.1 1
     (Or.inr (Or.inr (Or.inr (Or.inr (Or.inl ⟨by norm_num, by norm_num⟩))))),
   c6_luminosity_fit_domain.2.1 (1 / 10) (by norm_num)⟩

/-! ## Cluster loop flag bookkeeping (main, source lines 509-515 and 751-757) -/

/-- Initial bright flag of a star (source line 510): stellar mass strictly
above 1.9 MSun. -/
def init_bright (stellar_mass : ℚ) : Bool := decide ((1.9 : ℚ) < stellar_mass)

/-- Initial disked flag of a star (source line 515): stellar mass at most
1.9 MSun. -/
def init_disked (stellar_mass : ℚ) : Bool := decide (stellar_mass ≤ (1.9 : ℚ))

/-- The star fields touched by the post-integration synchronization loop of
main (source lines 751-757). -/
structure SyncStar where
  bright : Bool
  disked : Bool
  disk_radius : ℚ
  disk_dust_mass : ℚ
  disk_gas_mass : ℚ
  disk_mass : ℚ

/-- The disk fields read by the synchronization loop. -/
structure SyncDisk where
  dispersed : Bool
  disk_radius : ℚ
  disk_dust_mass : ℚ
  disk_gas_mass : ℚ
  disk_mass : ℚ

/-- Embedding of the body of the loop `for this_star in stars[stars.disked]`
of main (source lines 751-757): set disked to the negation of the disk's
dispersed flag and copy the disk's derived fields; the bright flag is not
touched. -/
def sync_star (s : SyncStar) (d : SyncDisk) : SyncStar :=
  { s with
    disked := !d.dispersed
    disk_radius := d.disk_radius
    disk_dust_mass := d.disk_dust_mass
    disk_gas_mass := d.disk_gas_mass
    disk_mass := d.disk_mass }

/-- C7 amended: at initialization exactly one of bright/disked holds for
every star (the flags are exact complements of the mass test against
1.9 MSun), but the invariant is not maintained as stated: the
post-integration synchronization sets disked to the negation of the disk's
dispersed flag and leaves bright unchanged, so when the disk of a (bright =
false) disked star disperses, the star ends the step with both flags false;
only at-most-one of the flags, not exactly-one, holds from then on. -/
theorem c7_amended_flag_dynamics :
    (∀ m : ℚ, init_bright m = !init_disked m) ∧
    (∀ (s : SyncStar) (d : SyncDisk),
      (sync_star s d).bright = s.bright ∧ (sync_star s d).disked = !d.dispersed) := by
  constructor
  · intro m
    rw [init_bright, init_disked, ← decide_not]
    exact decide_eq_decide.mpr not_le.symm
  · intro s d
    exact ⟨rfl, rfl⟩

/-- A disked star (bright false, disked true) entering the synchronization
loop. -/
def c7star : SyncStar := ⟨false, true, 3, 1, 1, 2⟩

/-- The star's disk, which dispersed during the integration step. -/
def c7disk : SyncDisk := ⟨true, 0, 0, 0, 0⟩

/-- C7 counterexample: after its disk disperses and the synchronization loop
updates it, this star has bright = false and disked = false, so the two
flags are equal (both false) and the claimed exactly-one-of-bright/disked
invariant fails at the following step boundary. -/
theorem c7_counterexample :
    (sync_star c7star c7disk).bright = (sync_star c7star c7disk).disked ∧
    (sync_star c7star c7disk).bright = false := by
  exact ⟨rfl, rfl⟩
